import Mathlib

/-!
Verification of the `evaluate` experiment harness
(`irit_rst_dt/cmd/evaluate.py`).

The harness iterates over training corpora and cross-validation folds,
invokes the external attelo learner/decoder with generated argument sets,
checks for already-completed work via file existence, and aggregates
per-fold score files into a report.

The embedding models the filesystem as the finite set of paths that exist
(`FS`), and the observable actions of a run (directory creation, external
tool invocations, index rows written, reports generated) as a trace of
`Event`s.  Functions that can call `sys.exit` return a `Res`, which is
either a normal result or an exit with a message; `sys.exit` aborts the
whole process, so an exit propagates outward unchanged.

External attelo entry points (`attelo.cmd.learn.main_for_harness`,
`attelo.cmd.decode.main_for_harness`, `attelo.cmd.enfold.main_for_harness`,
the `attelo report` subprocess) are not under `src/`; their file-writing
effects are modelled from the spec's file-naming contract and marked as
such in their doc comments.
-/

namespace IritRstDt

/-- A learner configuration (from the `EVALUATIONS` entries of
`irit_rst_dt.local`): its display name, the attachment learner and the
optional relation learner. -/
structure Learner where
  name : String
  attach : String
  relate : Option String
deriving Repr, DecidableEq

/-- A decoder configuration: its display name and the decoder argument. -/
structure Decoder where
  name : String
  decoder : String
deriving Repr, DecidableEq

/-- One learner/decoder evaluation configuration (an entry of
`EVALUATIONS`). -/
structure EConf where
  name : String
  learner : Learner
  decoder : Decoder
deriving Repr, DecidableEq

/-- `LoopConfig`: that which is common to outerish loops. -/
structure LoopConfig where
  eval_dir : String
  scratch_dir : String
  fold_file : String
  dataset : String
deriving Repr, DecidableEq

/-- The filesystem, modelled as the finite set of paths that exist
(files, directories and symlinks alike, as probed by `os.path.exists` /
`fp.exists`). -/
structure FS where
  files : List String
deriving Repr, DecidableEq

/-- `os.path.exists` on the modelled filesystem. -/
def FS.pathExists (fs : FS) (p : String) : Bool :=
  fs.files.contains p

/-- Creating a path (file, directory or symlink).  The model never removes
paths: nothing in the harness deletes files. -/
def FS.mkFile (fs : FS) (p : String) : FS :=
  ⟨p :: fs.files⟩

/-- A row of a `CountIndex` file, as produced by `_do_tuple`:
`{"config": econf.name, "fold": fold, "counts_file": cfile}`. -/
structure IndexRow where
  config : String
  fold : Nat
  counts_file : String
deriving Repr, DecidableEq

/-- Observable actions of a run. -/
inductive Event where
  /-- `os.makedirs` of a directory. -/
  | mkdirs (dir : String)
  /-- `att.learn.main_for_harness`, training the two model files. -/
  | learnCall (model_a model_r : String)
  /-- `att.decode.load_models`, loading the two model files. -/
  | loadModels (model_a model_r : String)
  /-- `att.decode.main_for_harness`, writing counts and output. -/
  | decodeCall (counts_file output_file : String)
  /-- `att.enfold.main_for_harness`, writing the fold-assignment file. -/
  | enfoldCall (fold_file : String)
  /-- the `attelo report` subprocess reading an index file and writing the
  pretty and JSON score files. -/
  | reportCall (idx_file pretty_file json_file : String)
  /-- `CountIndex.writerow` on the index file `idx`. -/
  | writeRow (idx : String) (row : IndexRow)
  /-- `load_data_pack` on the three per-dataset data files. -/
  | loadDataPack (edu_file pairings_file features_file : String)
  /-- the `pip freeze` subprocess writing `versions.txt`. -/
  | pipFreeze (versions_file : String)
  /-- `force_symlink target linkname`. -/
  | symlink (target linkname : String)
deriving Repr, DecidableEq

/-- Result of a computation that may call `sys.exit`. -/
inductive Res (α : Type) where
  | ok (a : α) (fs : FS) (tr : List Event)
  | exited (msg : String) (fs : FS) (tr : List Event)
deriving Repr, DecidableEq

/-- The trace of a possibly-exiting computation. -/
def Res.trace {α : Type} : Res α → List Event
  | .ok _ _ tr => tr
  | .exited _ _ tr => tr

/-- Whether the computation finished normally (did not `sys.exit`). -/
def Res.isOk {α : Type} : Res α → Bool
  | .ok .. => true
  | .exited .. => false

/-- The filesystem after the computation. -/
def Res.fsOut {α : Type} : Res α → FS
  | .ok _ fs _ => fs
  | .exited _ fs _ => fs

/-- The returned value, when the computation finished normally. -/
def Res.value? {α : Type} : Res α → Option α
  | .ok a _ _ => some a
  | .exited .. => none

/-- The message `_exit_ungathered` passes to `sys.exit`. -/
def _exit_ungathered_msg : String :=
  "No data to run experiments on.\nPlease run `irit-rst-dt gather`"

/-- `os.path.join a b` for a relative second component. -/
def joinPath (a b : String) : String :=
  a ++ "/" ++ b

/-- `os.path.basename`: the component after the last slash (the whole
string when there is no slash). -/
def basename (p : String) : String :=
  ⟨p.data.foldl (fun acc c => if c = '/' then [] else acc ++ [c]) []⟩

/-- `_eval_data_path`: path to a data file in the evaluation dir,
`"%s.%s" % (lconf.dataset, ext)` under `lconf.eval_dir`. -/
def _eval_data_path (lconf : LoopConfig) (ext : String) : String :=
  joinPath lconf.eval_dir (lconf.dataset ++ "." ++ ext)

/-- `_features_path`: the feature file in the evaluation dir. -/
def _features_path (lconf : LoopConfig) : String :=
  _eval_data_path lconf "relations.sparse"

/-- `_edu_input_path`: the EDU input file in the evaluation dir. -/
def _edu_input_path (lconf : LoopConfig) : String :=
  _features_path lconf ++ ".edu_input"

/-- `_pairings_path`: the pairings file in the evaluation dir. -/
def _pairings_path (lconf : LoopConfig) : String :=
  _features_path lconf ++ ".pairings"

/-- `_fold_dir_path`: scratch directory for working within a given fold. -/
def _fold_dir_path (lconf : LoopConfig) (fold : Nat) : String :=
  joinPath lconf.scratch_dir ("fold-" ++ toString fold)

/-- `_eval_model_path`: model for a given loop/eval config and fold,
`"%s.%s.%s.model" % (lconf.dataset, lname, mtype)` inside the fold dir. -/
def _eval_model_path (lconf : LoopConfig) (econf : EConf) (fold : Nat)
    (mtype : String) : String :=
  joinPath ( _fold_dir_path lconf fold)
    (lconf.dataset ++ "." ++ econf.learner.name ++ "." ++ mtype ++ ".model")

/-- `_counts_file_path`: scores collected for a given loop and eval
configuration, `".".join(["counts", econf.name, "csv"])` in the fold dir. -/
def _counts_file_path (lconf : LoopConfig) (econf : EConf) (fold : Nat) :
    String :=
  joinPath ( _fold_dir_path lconf fold) ("counts." ++ econf.name ++ ".csv")

/-- `_decode_output_path`: decoder output for a given loop/eval config and
fold, `".".join(["output", econf.name])` in the fold dir. -/
def _decode_output_path (lconf : LoopConfig) (econf : EConf) (fold : Nat) :
    String :=
  joinPath ( _fold_dir_path lconf fold) ("output." ++ econf.name)

/-- `_index_file_path`: the count index file in the given directory. -/
def _index_file_path (parent_dir : String) (lconf : LoopConfig) : String :=
  joinPath parent_dir ("count-index-" ++ lconf.dataset ++ ".csv")

/-- Path to a score file given a parent dir; an extension is tacked on by
callers.  Source name: the score-file path-stem helper of `evaluate.py`. -/
def _score_file_stem (parent_dir : String) (lconf : LoopConfig) : String :=
  joinPath parent_dir ("scores-" ++ lconf.dataset)

/-- The `if not os.path.exists(d): os.makedirs(d)` pattern used by
`_maybe_learn`, `_decode` and `_do_fold` to create the fold directory. -/
def ensureDir (p : String) (fs : FS) : FS × List Event :=
  if fs.pathExists p then (fs, [])
  else (fs.mkFile p, [Event.mkdirs p])

/-- Modelled from the spec: `attelo.cmd.learn.main_for_harness` belongs to
the attelo library, whose implementation is not under `src/`.  Per the
spec's file-naming contract ("per-fold model files named by
dataset/learner/model-type"), training writes the attachment and relation
model files named by the `--attachment-model` and `--relation-model`
arguments. -/
def learn_main_for_harness (fs : FS) (model_a model_r : String) : FS :=
  (fs.mkFile model_a).mkFile model_r

/-- Modelled from the spec: `attelo.cmd.decode.main_for_harness` belongs to
the attelo library, whose implementation is not under `src/`.  Per the
spec's file-naming contract ("per-configuration count files"), decoding
writes the counts file named by `--scores` and the decoder output named by
`--output`. -/
def decode_main_for_harness (fs : FS) (counts_file output_file : String) :
    FS :=
  (fs.mkFile counts_file).mkFile output_file

/-- Modelled from the spec: `attelo.cmd.enfold.main_for_harness` belongs to
the attelo library, whose implementation is not under `src/`.  Per the
spec's file-naming contract ("JSON fold-assignment files"), it writes the
fold-assignment file named by `--output`, i.e. `lconf.fold_file`. -/
def enfold_main_for_harness (fs : FS) (fold_file : String) : FS :=
  fs.mkFile fold_file

/-- Modelled from the spec: the `attelo report` subprocess belongs to the
attelo library, whose implementation is not under `src/`.  It reads the
count index file and writes the JSON score file named by `--json`
(aggregating per-fold score files into a report). -/
def attelo_report (fs : FS) (json_file : String) : FS :=
  fs.mkFile json_file

/-- `_maybe_learn`: run the learner unless the model files already exist.
`args.attachment_model` and `args.relation_model` are parsed from the
`--attachment-model` and `--relation-model` arguments that
`FakeEvalArgs.argv` builds with `_eval_model_path ... "attach"` and
`_eval_model_path ... "relate"`.  The `dconf.pack.training` sub-pack
selection is pure and has no filesystem effect, so it does not appear in
the model. -/
def _maybe_learn (lconf : LoopConfig) (econf : EConf) (fold : Nat)
    (fs : FS) : FS × List Event :=
  let fold_dir := _fold_dir_path lconf fold
  let st := ensureDir fold_dir fs
  let model_a := _eval_model_path lconf econf fold "attach"
  let model_r := _eval_model_path lconf econf fold "relate"
  if st.1.pathExists model_a && st.1.pathExists model_r then st
  else
    (learn_main_for_harness st.1 model_a model_r,
     st.2 ++ [Event.learnCall model_a model_r])

/-- `_decode`: run the decoder for this given fold, unless the counts file
already exists.  `FakeDecodeArgs.argv` passes `--scores` as
`_counts_file_path` and `--output` as `_decode_output_path`. -/
def _decode (lconf : LoopConfig) (econf : EConf) (fold : Nat) (fs : FS) :
    FS × List Event :=
  let cfile := _counts_file_path lconf econf fold
  if fs.pathExists cfile then (fs, [])
  else
    let st := ensureDir ( _fold_dir_path lconf fold) fs
    let model_a := _eval_model_path lconf econf fold "attach"
    let model_r := _eval_model_path lconf econf fold "relate"
    let ofile := _decode_output_path lconf econf fold
    (decode_main_for_harness st.1 cfile ofile,
     st.2 ++ [Event.loadModels model_a model_r, Event.decodeCall cfile ofile])

/-- `_generate_fold_file`: generate the folds file via attelo enfold. -/
def _generate_fold_file (lconf : LoopConfig) (fs : FS) : FS × List Event :=
  (enfold_main_for_harness fs lconf.fold_file,
   [Event.enfoldCall lconf.fold_file])

/-- `_mk_report`: generate reports for scores.  `open(pretty_file, "w")`
creates the pretty file; the `attelo report` call writes the JSON file. -/
def _mk_report (parent_dir : String) (lconf : LoopConfig)
    (idx_file : String) (fs : FS) : FS × List Event :=
  let json_file := _score_file_stem parent_dir lconf ++ ".json"
  let pretty_file := _score_file_stem parent_dir lconf ++ ".txt"
  (attelo_report (fs.mkFile pretty_file) json_file,
   [Event.reportCall idx_file pretty_file json_file])

/-- `_do_tuple`: run a single combination of parameters (innermost block)
and return a counts index entry. -/
def _do_tuple (lconf : LoopConfig) (econf : EConf) (fold : Nat) (fs : FS) :
    FS × List Event × IndexRow :=
  let cfile := _counts_file_path lconf econf fold
  let r1 := _maybe_learn lconf econf fold fs
  let r2 := _decode lconf econf fold r1.1
  (r2.1, r1.2 ++ r2.2,
   { config := econf.name, fold := fold, counts_file := cfile })

/-- The `for econf in EVALUATIONS` loop of `_do_fold`: run `_do_tuple` for
each configuration in turn, writing its index entry both to the
corpus-level index `idx_file` and to the per-fold index `fold_idx_file`. -/
def run_evals (lconf : LoopConfig) (fold : Nat)
    (idx_file fold_idx_file : String) :
    List EConf → FS → FS × List Event
  | [], fs => (fs, [])
  | econf :: rest, fs =>
    let r := _do_tuple lconf econf fold fs
    let k := run_evals lconf fold idx_file fold_idx_file rest r.1
    (k.1,
     r.2.1 ++ [Event.writeRow idx_file r.2.2,
               Event.writeRow fold_idx_file r.2.2] ++ k.2)

/-- `_do_fold`: run all learner/decoder combos within this fold, unless
the per-fold score file already exists; `idx` (here `idx_file`) is the
corpus-level count index.  Entering `CountIndex(fold_idx_file)` creates
the per-fold index file. -/
def _do_fold (evals : List EConf) (idx_file : String) (lconf : LoopConfig)
    (fold : Nat) (fs : FS) : FS × List Event :=
  let fold_dir := _fold_dir_path lconf fold
  if fs.pathExists ( _score_file_stem fold_dir lconf ++ ".txt") then
    (fs, [])
  else
    let st := ensureDir fold_dir fs
    let fold_idx_file := _index_file_path fold_dir lconf
    let r := run_evals lconf fold idx_file fold_idx_file evals
               (st.1.mkFile fold_idx_file)
    let rep := _mk_report fold_dir lconf fold_idx_file r.1
    (rep.1, st.2 ++ r.2 ++ rep.2)

/-- The `for fold in frozenset(dconf.folds.values())` loop of
`_do_corpus`: run `_do_fold` on each fold value in turn. -/
def run_folds (evals : List EConf) (idx_file : String)
    (lconf : LoopConfig) : List Nat → FS → FS × List Event
  | [], fs => (fs, [])
  | fold :: rest, fs =>
    let r := _do_fold evals idx_file lconf fold fs
    let k := run_folds evals idx_file lconf rest r.1
    (k.1, r.2 ++ k.2)

/-- `_do_corpus`: run evaluation on a corpus.  `folds` is the parsed
content of the fold-assignment JSON (a document-to-fold mapping, written
by the external enfold step and read back); the loop iterates over the
set of its fold values.  Entering `CountIndex(idx_file)` creates the
corpus-level index file. -/
def _do_corpus (evals : List EConf) (folds : List (String × Nat))
    (lconf : LoopConfig) (fs : FS) : Res Unit :=
  if fs.pathExists (_edu_input_path lconf) = false then
    Res.exited _exit_ungathered_msg fs []
  else
    let ev0 := [Event.loadDataPack (_edu_input_path lconf)
                  (_pairings_path lconf) (_features_path lconf)]
    let g := _generate_fold_file lconf fs
    let idx_file := _index_file_path lconf.scratch_dir lconf
    let r := run_folds evals idx_file lconf ((folds.map Prod.snd).dedup)
               (g.1.mkFile idx_file)
    let rep := _mk_report lconf.eval_dir lconf idx_file r.1
    Res.ok () rep.1 (ev0 ++ g.2 ++ r.2 ++ rep.2)

/-- `_link_data_files`: hard-link every file of the data dir into the
evaluation directory.  The directory listing of the data dir is
data-dependent and is passed in as `data_files`. -/
def _link_data_files (data_files : List String) (eval_dir : String)
    (fs : FS) : FS :=
  data_files.foldl (fun acc f => acc.mkFile (joinPath eval_dir f)) fs

/-- The module constant `_DEBUG = 0` of `evaluate.py`. -/
def _DEBUG : Bool := false

/-- The scratch-directory block at the end of the non-resume branch of
`_create_eval_dirs`: create the timestamped scratch dir and the
`scratch-current` symlink when the dir is absent. -/
def _scratch_step (ts data_dir : String) (fs : FS) :
    String × FS × List Event :=
  let scratch_current := joinPath data_dir "scratch-current"
  let scratch_dir := joinPath data_dir ("scratch-" ++ ts)
  if fs.pathExists scratch_dir = false then
    (scratch_dir, (fs.mkFile scratch_dir).mkFile scratch_current,
     [Event.mkdirs scratch_dir,
      Event.symlink (basename scratch_dir) scratch_current])
  else
    (scratch_dir, fs, [])

/-- `_create_eval_dirs`: return eval and scratch directory paths, or exit.
`timestamp()` is external; its value is passed in as `tstamp`.
`force_symlink` creates (or replaces) the `eval-current` /
`scratch-current` symlink, so the symlink exists afterwards. -/
def _create_eval_dirs (data_files : List String) (resume : Bool)
    (tstamp data_dir : String) (fs : FS) : Res (String × String) :=
  let eval_current := joinPath data_dir "eval-current"
  let scratch_current := joinPath data_dir "scratch-current"
  if resume then
    if fs.pathExists eval_current = false
        ∨ fs.pathExists scratch_current = false then
      Res.exited "No currently running evaluation to resume!" fs []
    else
      Res.ok (eval_current, scratch_current) fs []
  else
    let ts := if _DEBUG then "TEST" else tstamp
    let eval_dir := joinPath data_dir ("eval-" ++ ts)
    if fs.pathExists eval_dir = false then
      let fs1 := ( _link_data_files data_files eval_dir
                    (fs.mkFile eval_dir)).mkFile eval_current
      let s := _scratch_step ts data_dir fs1
      Res.ok (eval_dir, s.1) s.2.1
        ([Event.mkdirs eval_dir,
          Event.symlink (basename eval_dir) eval_current] ++ s.2.2)
    else if _DEBUG = false then
      Res.exited "Try again in literally one second" fs []
    else
      let s := _scratch_step ts data_dir fs
      Res.ok (eval_dir, s.1) s.2.1 s.2.2

/-- The `LoopConfig` that the corpus loop of `main` builds for one corpus:
dataset is the basename of the corpus, the fold file is
`folds-<dataset>.json` in the eval dir. -/
def lconf_for (eval_dir scratch_dir corpus : String) : LoopConfig :=
  { eval_dir := eval_dir,
    scratch_dir := scratch_dir,
    fold_file := joinPath eval_dir ("folds-" ++ basename corpus ++ ".json"),
    dataset := basename corpus }

/-- The `for corpus in TRAINING_CORPORA` loop of `main`: run `_do_corpus`
on each corpus in list order; a `sys.exit` aborts the remaining corpora.
`folds_of` gives the parsed content of the fold-assignment JSON for a
dataset (written by the external enfold step and read back). -/
def run_corpora (evals : List EConf)
    (folds_of : String → List (String × Nat))
    (eval_dir scratch_dir : String) :
    List String → FS → Res Unit
  | [], fs => Res.ok () fs []
  | corpus :: rest, fs =>
    match _do_corpus evals (folds_of (basename corpus))
            (lconf_for eval_dir scratch_dir corpus) fs with
    | Res.exited m fs1 tr1 => Res.exited m fs1 tr1
    | Res.ok _ fs1 tr1 =>
      match run_corpora evals folds_of eval_dir scratch_dir rest fs1 with
      | Res.exited m fs2 tr2 => Res.exited m fs2 (tr1 ++ tr2)
      | Res.ok _ fs2 tr2 => Res.ok () fs2 (tr1 ++ tr2)

/-- `main`: the `evaluate` subcommand.  `latest_tmp()` is external; its
value is passed in as `data_dir`.  `TRAINING_CORPORA` and `EVALUATIONS`
come from the configuration module `irit_rst_dt.local` and are passed in
as `corpora` and `evals`. -/
def main (corpora : List String) (evals : List EConf)
    (folds_of : String → List (String × Nat)) (data_files : List String)
    (resume : Bool) (tstamp data_dir : String) (fs : FS) : Res Unit :=
  if fs.pathExists data_dir = false then
    Res.exited _exit_ungathered_msg fs []
  else
    match _create_eval_dirs data_files resume tstamp data_dir fs with
    | Res.exited m fs1 tr1 => Res.exited m fs1 tr1
    | Res.ok (eval_dir, scratch_dir) fs1 tr1 =>
      let versions := joinPath eval_dir "versions.txt"
      match run_corpora evals folds_of eval_dir scratch_dir corpora
              (fs1.mkFile versions) with
      | Res.exited m fs2 tr2 =>
        Res.exited m fs2 (tr1 ++ [Event.pipFreeze versions] ++ tr2)
      | Res.ok _ fs2 tr2 =>
        Res.ok () fs2 (tr1 ++ [Event.pipFreeze versions] ++ tr2)

/-- The index row `_do_tuple` produces for a configuration and fold. -/
def rowFor (lconf : LoopConfig) (econf : EConf) (fold : Nat) : IndexRow :=
  { config := econf.name, fold := fold,
    counts_file := _counts_file_path lconf econf fold }

/-- Whether an event is a `CountIndex.writerow` on the index file `idx`. -/
def Event.isRowTo (idx : String) : Event → Bool
  | .writeRow i _ => i == idx
  | _ => false

/-- Whether an event is a `CountIndex.writerow` on the index file `idx`
whose row records fold number `n`. -/
def Event.isRowFoldTo (idx : String) (n : Nat) : Event → Bool
  | .writeRow i r => i == idx && r.fold == n
  | _ => false

/-- Whether an event is a `load_data_pack` call. -/
def Event.isLoadData : Event → Bool
  | .loadDataPack .. => true
  | _ => false

/-- A sample evaluation configuration, for the concrete witnesses. -/
def sampleEConf : EConf :=
  { name := "bl",
    learner := { name := "bayes", attach := "bayes", relate := none },
    decoder := { name := "last", decoder := "last" } }

/-- A sample loop configuration, for the concrete witnesses. -/
def sampleLconf : LoopConfig :=
  { eval_dir := "T/e", scratch_dir := "T/s",
    fold_file := "T/e/folds-d.json", dataset := "d" }

/-- A sample filesystem in which the counts file for `sampleEConf` at
fold 0 already exists. -/
def sampleFS1 : FS :=
  ⟨[ _counts_file_path sampleLconf sampleEConf 0 ]⟩

/-- A sample filesystem in which the fold-0 score file and the EDU input
file already exist. -/
def sampleFS2 : FS :=
  ⟨[ _score_file_stem (_fold_dir_path sampleLconf 0) sampleLconf ++ ".txt",
     _edu_input_path sampleLconf ]⟩

/-- A sample filesystem holding the EDU input file for the corpus "c" as
laid out by `lconf_for "T/e" "T/s"`. -/
def sampleFS3 : FS :=
  ⟨[ _edu_input_path (lconf_for "T/e" "T/s" "c") ]⟩

/-- A fold-assignment lookup with no documents, for the witnesses. -/
def emptyFolds : String → List (String × Nat) := fun _ => []

/-! ## Basic lemmas about the filesystem model -/

theorem FS.pathExists_mkFile (fs : FS) (p q : String) :
    (fs.mkFile q).pathExists p = (p == q || fs.pathExists p) := by
  cases h : p == q <;>
    simp [FS.pathExists, FS.mkFile, List.contains, List.elem, h]

theorem FS.pathExists_mkFile_of (fs : FS) (p q : String)
    (h : fs.pathExists p = true) : (fs.mkFile q).pathExists p = true := by
  simp [FS.pathExists_mkFile, h]

theorem joinPath_beq_left (a b : String) : (joinPath a b == a) = false := by
  apply beq_eq_false_iff_ne.mpr
  intro h
  have hl := congrArg String.length h
  have h1 : String.length "/" = 1 := rfl
  simp only [joinPath, String.length_append, h1] at hl
  omega

theorem eval_model_path_beq_fold_dir (lconf : LoopConfig) (econf : EConf)
    (fold : Nat) (mtype : String) :
    (_eval_model_path lconf econf fold mtype == _fold_dir_path lconf fold) =
      false :=
  joinPath_beq_left _ _

theorem ensureDir_fst_pathExists_self (p : String) (fs : FS) :
    ((ensureDir p fs).1).pathExists p = true := by
  unfold ensureDir
  split
  · assumption
  · simp [FS.pathExists_mkFile]

theorem ensureDir_fst_pathExists_mono (p q : String) (fs : FS)
    (h : fs.pathExists q = true) :
    ((ensureDir p fs).1).pathExists q = true := by
  unfold ensureDir
  split <;> simp [FS.pathExists_mkFile, h]

theorem ensureDir_fst_pathExists_ne (p q : String) (fs : FS)
    (h : (q == p) = false) :
    ((ensureDir p fs).1).pathExists q = fs.pathExists q := by
  unfold ensureDir
  split <;> simp [FS.pathExists_mkFile, h]

theorem ensureDir_snd (p : String) (fs : FS) :
    (ensureDir p fs).2 = [] ∨ (ensureDir p fs).2 = [Event.mkdirs p] := by
  unfold ensureDir
  split <;> simp

/-! ## Skip and postcondition lemmas for the learn/decode stages -/

theorem maybe_learn_skip (lconf : LoopConfig) (econf : EConf) (fold : Nat)
    (fs : FS)
    (hd : fs.pathExists (_fold_dir_path lconf fold) = true)
    (ha : fs.pathExists (_eval_model_path lconf econf fold "attach") = true)
    (hr : fs.pathExists (_eval_model_path lconf econf fold "relate") = true) :
    _maybe_learn lconf econf fold fs = (fs, []) := by
  simp [_maybe_learn, ensureDir, hd, ha, hr]

theorem decode_skip (lconf : LoopConfig) (econf : EConf) (fold : Nat)
    (fs : FS)
    (h : fs.pathExists (_counts_file_path lconf econf fold) = true) :
    _decode lconf econf fold fs = (fs, []) := by
  simp [_decode, h]

theorem maybe_learn_post (lconf : LoopConfig) (econf : EConf) (fold : Nat)
    (fs : FS) :
    ((_maybe_learn lconf econf fold fs).1).pathExists
        (_fold_dir_path lconf fold) = true ∧
    ((_maybe_learn lconf econf fold fs).1).pathExists
        (_eval_model_path lconf econf fold "attach") = true ∧
    ((_maybe_learn lconf econf fold fs).1).pathExists
        (_eval_model_path lconf econf fold "relate") = true := by
  have hd := ensureDir_fst_pathExists_self (_fold_dir_path lconf fold) fs
  by_cases hc :
      ((ensureDir (_fold_dir_path lconf fold) fs).1.pathExists
          (_eval_model_path lconf econf fold "attach")
        && (ensureDir (_fold_dir_path lconf fold) fs).1.pathExists
          (_eval_model_path lconf econf fold "relate")) = true
  · rw [Bool.and_eq_true] at hc
    simp only [_maybe_learn]
    rw [if_pos (by rw [Bool.and_eq_true]; exact hc)]
    exact ⟨hd, hc.1, hc.2⟩
  · rw [Bool.not_eq_true] at hc
    simp only [_maybe_learn]
    rw [if_neg (by simp [hc])]
    simp [learn_main_for_harness, FS.pathExists_mkFile, hd]

theorem decode_fst_pathExists_mono (lconf : LoopConfig) (econf : EConf)
    (fold : Nat) (fs : FS) (q : String) (h : fs.pathExists q = true) :
    ((_decode lconf econf fold fs).1).pathExists q = true := by
  by_cases hc : fs.pathExists (_counts_file_path lconf econf fold) = true
  · simp [_decode, hc, h]
  · rw [Bool.not_eq_true] at hc
    simp [_decode, hc, decode_main_for_harness, FS.pathExists_mkFile,
      ensureDir_fst_pathExists_mono _ _ _ h]

theorem decode_counts_post (lconf : LoopConfig) (econf : EConf) (fold : Nat)
    (fs : FS) :
    ((_decode lconf econf fold fs).1).pathExists
      (_counts_file_path lconf econf fold) = true := by
  by_cases hc : fs.pathExists (_counts_file_path lconf econf fold) = true
  · simp [_decode, hc]
  · rw [Bool.not_eq_true] at hc
    simp [_decode, hc, decode_main_for_harness, FS.pathExists_mkFile]

theorem do_tuple_fst (lconf : LoopConfig) (econf : EConf) (fold : Nat)
    (fs : FS) :
    (_do_tuple lconf econf fold fs).1 =
      (_decode lconf econf fold ((_maybe_learn lconf econf fold fs).1)).1 :=
  rfl

theorem do_tuple_post (lconf : LoopConfig) (econf : EConf) (fold : Nat)
    (fs : FS) :
    ((_do_tuple lconf econf fold fs).1).pathExists
        (_fold_dir_path lconf fold) = true ∧
    ((_do_tuple lconf econf fold fs).1).pathExists
        (_eval_model_path lconf econf fold "attach") = true ∧
    ((_do_tuple lconf econf fold fs).1).pathExists
        (_eval_model_path lconf econf fold "relate") = true ∧
    ((_do_tuple lconf econf fold fs).1).pathExists
        (_counts_file_path lconf econf fold) = true := by
  obtain ⟨h1, h2, h3⟩ := maybe_learn_post lconf econf fold fs
  rw [do_tuple_fst]
  exact ⟨decode_fst_pathExists_mono _ _ _ _ _ h1,
         decode_fst_pathExists_mono _ _ _ _ _ h2,
         decode_fst_pathExists_mono _ _ _ _ _ h3,
         decode_counts_post _ _ _ _⟩

theorem do_tuple_skip (lconf : LoopConfig) (econf : EConf) (fold : Nat)
    (fs : FS)
    (h1 : fs.pathExists (_fold_dir_path lconf fold) = true)
    (h2 : fs.pathExists (_eval_model_path lconf econf fold "attach") = true)
    (h3 : fs.pathExists (_eval_model_path lconf econf fold "relate") = true)
    (h4 : fs.pathExists (_counts_file_path lconf econf fold) = true) :
    _do_tuple lconf econf fold fs = (fs, [], rowFor lconf econf fold) := by
  simp [_do_tuple, maybe_learn_skip lconf econf fold fs h1 h2 h3,
    decode_skip lconf econf fold fs h4, rowFor]

/-- C1: for every loop configuration, evaluation configuration and fold, if
the counts file `<scratch_dir>/fold-<fold>/counts.<econf.name>.csv` already
exists, `_decode` returns without loading models or invoking the decoder
and without creating or modifying any file (the filesystem is unchanged and
the trace is empty); hence running `_do_tuple` a second time after a
completed first run re-runs no expensive step: the second run leaves the
filesystem unchanged, produces an empty trace, and merely recomputes the
index row. -/
theorem decode_stage_idempotent (lconf : LoopConfig) (econf : EConf)
    (fold : Nat) (fs : FS)
    (h : fs.pathExists (_counts_file_path lconf econf fold) = true) :
    _decode lconf econf fold fs = (fs, []) ∧
    _do_tuple lconf econf fold ((_do_tuple lconf econf fold fs).1) =
      ((_do_tuple lconf econf fold fs).1, [], rowFor lconf econf fold) := by
  refine ⟨decode_skip lconf econf fold fs h, ?_⟩
  obtain ⟨h1, h2, h3, h4⟩ := do_tuple_post lconf econf fold fs
  exact do_tuple_skip lconf econf fold _ h1 h2 h3 h4

/-- Witness for C1 at a concrete configuration and filesystem. -/
theorem decode_stage_idempotent_witness :
    sampleFS1.pathExists (_counts_file_path sampleLconf sampleEConf 0) =
        true ∧
    (_decode sampleLconf sampleEConf 0 sampleFS1 = (sampleFS1, []) ∧
     _do_tuple sampleLconf sampleEConf 0
         ((_do_tuple sampleLconf sampleEConf 0 sampleFS1).1) =
       ((_do_tuple sampleLconf sampleEConf 0 sampleFS1).1, [],
        rowFor sampleLconf sampleEConf 0)) :=
  ⟨by decide,
   decode_stage_idempotent sampleLconf sampleEConf 0 sampleFS1 (by decide)⟩

/-- C2: for every loop configuration, evaluation configuration and fold,
`_maybe_learn` invokes the learner if and only if it is not the case that
both the attachment model file and the relation model file for that
(dataset, learner, fold) exist; when both exist it returns without
retraining. -/
theorem maybe_learn_runs_iff (lconf : LoopConfig) (econf : EConf)
    (fold : Nat) (fs : FS) :
    (Event.learnCall (_eval_model_path lconf econf fold "attach")
         (_eval_model_path lconf econf fold "relate")
       ∈ (_maybe_learn lconf econf fold fs).2) ↔
    ¬(fs.pathExists (_eval_model_path lconf econf fold "attach") = true ∧
      fs.pathExists (_eval_model_path lconf econf fold "relate") = true) := by
  have hea := ensureDir_fst_pathExists_ne (_fold_dir_path lconf fold)
    (_eval_model_path lconf econf fold "attach") fs
    (eval_model_path_beq_fold_dir lconf econf fold "attach")
  have her := ensureDir_fst_pathExists_ne (_fold_dir_path lconf fold)
    (_eval_model_path lconf econf fold "relate") fs
    (eval_model_path_beq_fold_dir lconf econf fold "relate")
  cases hc :
      ((ensureDir (_fold_dir_path lconf fold) fs).1.pathExists
          (_eval_model_path lconf econf fold "attach")
        && (ensureDir (_fold_dir_path lconf fold) fs).1.pathExists
          (_eval_model_path lconf econf fold "relate"))
  · have hnot : ¬(fs.pathExists
          (_eval_model_path lconf econf fold "attach") = true ∧
        fs.pathExists (_eval_model_path lconf econf fold "relate") = true) := by
      intro hboth
      have ha' : (ensureDir (_fold_dir_path lconf fold) fs).1.pathExists
          (_eval_model_path lconf econf fold "attach") = true := by
        rw [hea]; exact hboth.1
      have hr' : (ensureDir (_fold_dir_path lconf fold) fs).1.pathExists
          (_eval_model_path lconf econf fold "relate") = true := by
        rw [her]; exact hboth.2
      simp [ha', hr'] at hc
    rcases ensureDir_snd (_fold_dir_path lconf fold) fs with h | h <;>
      simp [_maybe_learn, hc, h, hnot]
  · rw [Bool.and_eq_true] at hc
    have h1 : fs.pathExists (_eval_model_path lconf econf fold "attach") =
        true := by rw [← hea]; exact hc.1
    have h2 : fs.pathExists (_eval_model_path lconf econf fold "relate") =
        true := by rw [← her]; exact hc.2
    rcases ensureDir_snd (_fold_dir_path lconf fold) fs with h | h <;>
      simp [_maybe_learn, hea, her, h1, h2, h]

/-! ## String-length disequality helpers -/

theorem beq_false_of_length_ne (a b : String) (h : a.length ≠ b.length) :
    (a == b) = false :=
  beq_eq_false_iff_ne.mpr (fun hab => h (congrArg String.length hab))

theorem joinPath_length (a b : String) :
    (joinPath a b).length = a.length + 1 + b.length := by
  have h1 : String.length "/" = 1 := rfl
  simp [joinPath, String.length_append, h1]

theorem index_file_path_scratch_beq_fold (lconf : LoopConfig) (fold : Nat) :
    (_index_file_path lconf.scratch_dir lconf ==
       _index_file_path (_fold_dir_path lconf fold) lconf) = false := by
  apply beq_false_of_length_ne
  simp only [_index_file_path, _fold_dir_path, joinPath_length]
  omega

theorem index_file_path_fold_beq_scratch (lconf : LoopConfig) (fold : Nat) :
    (_index_file_path (_fold_dir_path lconf fold) lconf ==
       _index_file_path lconf.scratch_dir lconf) = false := by
  apply beq_false_of_length_ne
  simp only [_index_file_path, _fold_dir_path, joinPath_length]
  omega

/-! ## Trace classification for the innermost stages -/

theorem maybe_learn_trace_mem (lconf : LoopConfig) (econf : EConf)
    (fold : Nat) (fs : FS) (ev : Event)
    (he : ev ∈ (_maybe_learn lconf econf fold fs).2) :
    ev = Event.mkdirs (_fold_dir_path lconf fold) ∨
    ev = Event.learnCall (_eval_model_path lconf econf fold "attach")
          (_eval_model_path lconf econf fold "relate") := by
  rcases ensureDir_snd (_fold_dir_path lconf fold) fs with h | h <;>
    cases hc :
      ((ensureDir (_fold_dir_path lconf fold) fs).1.pathExists
          (_eval_model_path lconf econf fold "attach")
        && (ensureDir (_fold_dir_path lconf fold) fs).1.pathExists
          (_eval_model_path lconf econf fold "relate")) <;>
    simp [_maybe_learn, hc, h] at he <;> tauto

theorem decode_trace_mem (lconf : LoopConfig) (econf : EConf) (fold : Nat)
    (fs : FS) (ev : Event) (he : ev ∈ (_decode lconf econf fold fs).2) :
    ev = Event.mkdirs (_fold_dir_path lconf fold) ∨
    ev = Event.loadModels (_eval_model_path lconf econf fold "attach")
          (_eval_model_path lconf econf fold "relate") ∨
    ev = Event.decodeCall (_counts_file_path lconf econf fold)
          (_decode_output_path lconf econf fold) := by
  rcases ensureDir_snd (_fold_dir_path lconf fold) fs with h | h <;>
    cases hc : fs.pathExists (_counts_file_path lconf econf fold) <;>
    simp [_decode, hc, h] at he <;> tauto

theorem do_tuple_trace_mem (lconf : LoopConfig) (econf : EConf) (fold : Nat)
    (fs : FS) (ev : Event)
    (he : ev ∈ (_do_tuple lconf econf fold fs).2.1) :
    ev = Event.mkdirs (_fold_dir_path lconf fold) ∨
    ev = Event.learnCall (_eval_model_path lconf econf fold "attach")
          (_eval_model_path lconf econf fold "relate") ∨
    ev = Event.loadModels (_eval_model_path lconf econf fold "attach")
          (_eval_model_path lconf econf fold "relate") ∨
    ev = Event.decodeCall (_counts_file_path lconf econf fold)
          (_decode_output_path lconf econf fold) := by
  have hsp : (_do_tuple lconf econf fold fs).2.1 =
      (_maybe_learn lconf econf fold fs).2 ++
        (_decode lconf econf fold ((_maybe_learn lconf econf fold fs).1)).2 :=
    rfl
  rw [hsp, List.mem_append] at he
  rcases he with he | he
  · rcases maybe_learn_trace_mem lconf econf fold fs ev he with h | h <;> tauto
  · rcases decode_trace_mem lconf econf fold _ ev he with h | h | h <;> tauto

theorem do_tuple_filter_rowTo (lconf : LoopConfig) (econf : EConf)
    (fold : Nat) (fs : FS) (idx : String) :
    ((_do_tuple lconf econf fold fs).2.1).filter (Event.isRowTo idx) = [] := by
  apply List.filter_eq_nil_iff.mpr
  intro ev he
  rcases do_tuple_trace_mem lconf econf fold fs ev he with h | h | h | h <;>
    subst h <;> simp [Event.isRowTo]

theorem do_tuple_filter_rowFoldTo (lconf : LoopConfig) (econf : EConf)
    (fold : Nat) (fs : FS) (idx : String) (n : Nat) :
    ((_do_tuple lconf econf fold fs).2.1).filter (Event.isRowFoldTo idx n) =
      [] := by
  apply List.filter_eq_nil_iff.mpr
  intro ev he
  rcases do_tuple_trace_mem lconf econf fold fs ev he with h | h | h | h <;>
    subst h <;> simp [Event.isRowFoldTo]

theorem do_tuple_filter_loadData (lconf : LoopConfig) (econf : EConf)
    (fold : Nat) (fs : FS) :
    ((_do_tuple lconf econf fold fs).2.1).filter Event.isLoadData = [] := by
  apply List.filter_eq_nil_iff.mpr
  intro ev he
  rcases do_tuple_trace_mem lconf econf fold fs ev he with h | h | h | h <;>
    subst h <;> simp [Event.isLoadData]

theorem do_tuple_row (lconf : LoopConfig) (econf : EConf) (fold : Nat)
    (fs : FS) :
    (_do_tuple lconf econf fold fs).2.2 = rowFor lconf econf fold :=
  rfl

/-! ## Monotonicity: no stage ever removes a path -/

theorem maybe_learn_fst_mono (lconf : LoopConfig) (econf : EConf)
    (fold : Nat) (fs : FS) (q : String) (h : fs.pathExists q = true) :
    ((_maybe_learn lconf econf fold fs).1).pathExists q = true := by
  cases hc :
      ((ensureDir (_fold_dir_path lconf fold) fs).1.pathExists
          (_eval_model_path lconf econf fold "attach")
        && (ensureDir (_fold_dir_path lconf fold) fs).1.pathExists
          (_eval_model_path lconf econf fold "relate")) <;>
    simp [_maybe_learn, hc, learn_main_for_harness, FS.pathExists_mkFile,
      ensureDir_fst_pathExists_mono _ _ _ h]

theorem do_tuple_fst_mono (lconf : LoopConfig) (econf : EConf) (fold : Nat)
    (fs : FS) (q : String) (h : fs.pathExists q = true) :
    ((_do_tuple lconf econf fold fs).1).pathExists q = true := by
  rw [do_tuple_fst]
  exact decode_fst_pathExists_mono _ _ _ _ _
    (maybe_learn_fst_mono _ _ _ _ _ h)

theorem mk_report_fst_mono (parent_dir : String) (lconf : LoopConfig)
    (idx_file : String) (fs : FS) (q : String)
    (h : fs.pathExists q = true) :
    ((_mk_report parent_dir lconf idx_file fs).1).pathExists q = true := by
  simp [_mk_report, attelo_report, FS.pathExists_mkFile, h]

theorem run_evals_fst_mono (lconf : LoopConfig) (fold : Nat)
    (idx_file fold_idx_file : String) :
    ∀ (evals : List EConf) (fs : FS) (q : String),
      fs.pathExists q = true →
      ((run_evals lconf fold idx_file fold_idx_file evals fs).1).pathExists
        q = true
  | [], _, _, h => h
  | econf :: rest, fs, q, h =>
    run_evals_fst_mono lconf fold idx_file fold_idx_file rest
      (_do_tuple lconf econf fold fs).1 q
      (do_tuple_fst_mono lconf econf fold fs q h)

theorem do_fold_fst_mono (evals : List EConf) (idx_file : String)
    (lconf : LoopConfig) (fold : Nat) (fs : FS) (q : String)
    (h : fs.pathExists q = true) :
    ((_do_fold evals idx_file lconf fold fs).1).pathExists q = true := by
  by_cases hc : fs.pathExists
      ( _score_file_stem (_fold_dir_path lconf fold) lconf ++ ".txt") = true
  · simp [_do_fold, hc, h]
  · rw [Bool.not_eq_true] at hc
    have h1 := ensureDir_fst_pathExists_mono (_fold_dir_path lconf fold) q
      fs h
    have h2 := FS.pathExists_mkFile_of _ q
      (_index_file_path (_fold_dir_path lconf fold) lconf) h1
    have h3 := run_evals_fst_mono lconf fold idx_file
      (_index_file_path (_fold_dir_path lconf fold) lconf) evals _ q h2
    have h4 := mk_report_fst_mono (_fold_dir_path lconf fold) lconf
      (_index_file_path (_fold_dir_path lconf fold) lconf) _ q h3
    simpa [_do_fold, hc] using h4

/-! ## Trace structure of the evaluation loop -/

theorem run_evals_filter_rowTo_fidx (lconf : LoopConfig) (fold : Nat)
    (idx_file fold_idx_file : String)
    (hne : (idx_file == fold_idx_file) = false) :
    ∀ (evals : List EConf) (fs : FS),
      ((run_evals lconf fold idx_file fold_idx_file evals fs).2).filter
          (Event.isRowTo fold_idx_file) =
        evals.map (fun e => Event.writeRow fold_idx_file (rowFor lconf e fold))
  | [], _ => rfl
  | econf :: rest, fs => by
    have ih := run_evals_filter_rowTo_fidx lconf fold idx_file fold_idx_file
      hne rest (_do_tuple lconf econf fold fs).1
    simp [run_evals, List.filter_append, do_tuple_filter_rowTo, ih,
      Event.isRowTo, hne, do_tuple_row]

theorem run_evals_filter_rowTo_idx (lconf : LoopConfig) (fold : Nat)
    (idx_file fold_idx_file : String)
    (hne : (fold_idx_file == idx_file) = false) :
    ∀ (evals : List EConf) (fs : FS),
      ((run_evals lconf fold idx_file fold_idx_file evals fs).2).filter
          (Event.isRowTo idx_file) =
        evals.map (fun e => Event.writeRow idx_file (rowFor lconf e fold))
  | [], _ => rfl
  | econf :: rest, fs => by
    have ih := run_evals_filter_rowTo_idx lconf fold idx_file fold_idx_file
      hne rest (_do_tuple lconf econf fold fs).1
    simp [run_evals, List.filter_append, do_tuple_filter_rowTo, ih,
      Event.isRowTo, hne, do_tuple_row]

theorem run_evals_filter_rowFold_ne (lconf : LoopConfig) (fold : Nat)
    (idx_file fold_idx_file : String) (idx2 : String) (n : Nat)
    (hn : (fold == n) = false) :
    ∀ (evals : List EConf) (fs : FS),
      ((run_evals lconf fold idx_file fold_idx_file evals fs).2).filter
        (Event.isRowFoldTo idx2 n) = []
  | [], _ => rfl
  | econf :: rest, fs => by
    have ih := run_evals_filter_rowFold_ne lconf fold idx_file fold_idx_file
      idx2 n hn rest (_do_tuple lconf econf fold fs).1
    simp [run_evals, List.filter_append, do_tuple_filter_rowFoldTo, ih,
      Event.isRowFoldTo, hn, do_tuple_row, rowFor]

theorem run_evals_filter_loadData (lconf : LoopConfig) (fold : Nat)
    (idx_file fold_idx_file : String) :
    ∀ (evals : List EConf) (fs : FS),
      ((run_evals lconf fold idx_file fold_idx_file evals fs).2).filter
        Event.isLoadData = []
  | [], _ => rfl
  | econf :: rest, fs => by
    have ih := run_evals_filter_loadData lconf fold idx_file fold_idx_file
      rest (_do_tuple lconf econf fold fs).1
    simp [run_evals, List.filter_append, do_tuple_filter_loadData, ih,
      Event.isLoadData]

theorem run_evals_row_mem (lconf : LoopConfig) (fold : Nat)
    (idx_file fold_idx_file : String) :
    ∀ (evals : List EConf) (fs : FS) (econf : EConf), econf ∈ evals →
      Event.writeRow fold_idx_file (rowFor lconf econf fold) ∈
        (run_evals lconf fold idx_file fold_idx_file evals fs).2
  | [], _, econf, he => absurd he (List.not_mem_nil econf)
  | e0 :: rest, fs, econf, he => by
    rcases List.mem_cons.mp he with rfl | hm
    · simp [run_evals, do_tuple_row]
    · have ih := run_evals_row_mem lconf fold idx_file fold_idx_file rest
        (_do_tuple lconf e0 fold fs).1 econf hm
      simp only [run_evals, List.append_assoc, List.mem_append]
      tauto

/-! ## The fold stage -/

theorem do_fold_skip (evals : List EConf) (idx_file : String)
    (lconf : LoopConfig) (fold : Nat) (fs : FS)
    (h : fs.pathExists
      ( _score_file_stem (_fold_dir_path lconf fold) lconf ++ ".txt") =
        true) :
    _do_fold evals idx_file lconf fold fs = (fs, []) := by
  simp [_do_fold, h]

theorem do_fold_trace_nonskip (evals : List EConf) (idx_file : String)
    (lconf : LoopConfig) (fold : Nat) (fs : FS)
    (h : fs.pathExists
      ( _score_file_stem (_fold_dir_path lconf fold) lconf ++ ".txt") =
        false) :
    (_do_fold evals idx_file lconf fold fs).2 =
      (ensureDir (_fold_dir_path lconf fold) fs).2 ++
      (run_evals lconf fold idx_file
        (_index_file_path (_fold_dir_path lconf fold) lconf) evals
        ((ensureDir (_fold_dir_path lconf fold) fs).1.mkFile
          (_index_file_path (_fold_dir_path lconf fold) lconf))).2 ++
      [Event.reportCall (_index_file_path (_fold_dir_path lconf fold) lconf)
        ( _score_file_stem (_fold_dir_path lconf fold) lconf ++ ".txt")
        ( _score_file_stem (_fold_dir_path lconf fold) lconf ++ ".json")] := by
  simp [_do_fold, h, _mk_report]

/-- C3: for every loop configuration and fold, `_do_fold` runs no
learner/decoder combination, writes no index rows and no report when the
per-fold score file `<scratch_dir>/fold-<fold>/scores-<dataset>.txt`
already exists (it returns with the filesystem unchanged and an empty
trace); otherwise it runs every configuration in `EVALUATIONS` for that
fold (a row for each configuration is written to the per-fold index) and
then generates the per-fold report (the report call is the final action). -/
theorem do_fold_skip_or_run (evals : List EConf) (idx_file : String)
    (lconf : LoopConfig) (fold : Nat) (fs : FS) :
    (fs.pathExists
        ( _score_file_stem (_fold_dir_path lconf fold) lconf ++ ".txt") =
          true →
      _do_fold evals idx_file lconf fold fs = (fs, [])) ∧
    (fs.pathExists
        ( _score_file_stem (_fold_dir_path lconf fold) lconf ++ ".txt") =
          false →
      (∀ econf ∈ evals,
        Event.writeRow (_index_file_path (_fold_dir_path lconf fold) lconf)
            (rowFor lconf econf fold) ∈
          (_do_fold evals idx_file lconf fold fs).2) ∧
      (_do_fold evals idx_file lconf fold fs).2.getLast? =
        some (Event.reportCall
          (_index_file_path (_fold_dir_path lconf fold) lconf)
          ( _score_file_stem (_fold_dir_path lconf fold) lconf ++ ".txt")
          ( _score_file_stem (_fold_dir_path lconf fold) lconf ++
            ".json"))) := by
  refine ⟨do_fold_skip evals idx_file lconf fold fs, fun h => ⟨?_, ?_⟩⟩
  · intro econf he
    rw [do_fold_trace_nonskip evals idx_file lconf fold fs h]
    simp only [List.append_assoc, List.mem_append]
    exact Or.inr (Or.inl (run_evals_row_mem lconf fold idx_file _ evals _
      econf he))
  · rw [do_fold_trace_nonskip evals idx_file lconf fold fs h]
    exact List.getLast?_concat _

/-- C8: for every fold that is not skipped, `_do_fold` writes exactly one
index row per configuration in `EVALUATIONS` to the corpus-level count
index and exactly one identical row to the per-fold count index, each row
recording the configuration name, the fold number and the counts file path
(`rowFor`), in list order; a row is written even when both the learn and
decode steps for that configuration were skipped as already done (no
hypothesis about model or counts files is needed). -/
theorem do_fold_one_row_per_config (evals : List EConf)
    (lconf : LoopConfig) (fold : Nat) (fs : FS)
    (h : fs.pathExists
      ( _score_file_stem (_fold_dir_path lconf fold) lconf ++ ".txt") =
        false) :
    ((_do_fold evals (_index_file_path lconf.scratch_dir lconf) lconf fold
        fs).2).filter
        (Event.isRowTo (_index_file_path lconf.scratch_dir lconf)) =
      evals.map (fun e =>
        Event.writeRow (_index_file_path lconf.scratch_dir lconf)
          (rowFor lconf e fold)) ∧
    ((_do_fold evals (_index_file_path lconf.scratch_dir lconf) lconf fold
        fs).2).filter
        (Event.isRowTo (_index_file_path (_fold_dir_path lconf fold)
          lconf)) =
      evals.map (fun e =>
        Event.writeRow (_index_file_path (_fold_dir_path lconf fold) lconf)
          (rowFor lconf e fold)) := by
  have hne1 := index_file_path_scratch_beq_fold lconf fold
  have hne2 := index_file_path_fold_beq_scratch lconf fold
  constructor
  · rw [do_fold_trace_nonskip _ _ _ _ _ h]
    rcases ensureDir_snd (_fold_dir_path lconf fold) fs with he | he <;>
      simp [List.filter_append, he, Event.isRowTo, hne2,
        run_evals_filter_rowTo_idx lconf fold
          (_index_file_path lconf.scratch_dir lconf)
          (_index_file_path (_fold_dir_path lconf fold) lconf) hne2 evals]
  · rw [do_fold_trace_nonskip _ _ _ _ _ h]
    rcases ensureDir_snd (_fold_dir_path lconf fold) fs with he | he <;>
      simp [List.filter_append, he, Event.isRowTo,
        run_evals_filter_rowTo_fidx lconf fold
          (_index_file_path lconf.scratch_dir lconf)
          (_index_file_path (_fold_dir_path lconf fold) lconf) hne1 evals]

/-- Witness for C8 at a concrete configuration: the empty filesystem has
no score file, and one configuration yields exactly one row in each
index. -/
theorem do_fold_one_row_per_config_witness :
    (FS.mk []).pathExists
      ( _score_file_stem (_fold_dir_path sampleLconf 0) sampleLconf ++
        ".txt") = false ∧
    (((_do_fold [sampleEConf]
          (_index_file_path sampleLconf.scratch_dir sampleLconf) sampleLconf
          0 (FS.mk [])).2).filter
        (Event.isRowTo (_index_file_path sampleLconf.scratch_dir
          sampleLconf)) =
      [sampleEConf].map (fun e =>
        Event.writeRow (_index_file_path sampleLconf.scratch_dir sampleLconf)
          (rowFor sampleLconf e 0)) ∧
     ((_do_fold [sampleEConf]
          (_index_file_path sampleLconf.scratch_dir sampleLconf) sampleLconf
          0 (FS.mk [])).2).filter
        (Event.isRowTo (_index_file_path (_fold_dir_path sampleLconf 0)
          sampleLconf)) =
      [sampleEConf].map (fun e =>
        Event.writeRow (_index_file_path (_fold_dir_path sampleLconf 0)
          sampleLconf) (rowFor sampleLconf e 0))) :=
  ⟨by decide,
   do_fold_one_row_per_config [sampleEConf] sampleLconf 0 (FS.mk [])
     (by decide)⟩

/-! ## Rows attached to a skipped fold -/

theorem do_fold_filter_rowFold_ne (evals : List EConf) (idx_file : String)
    (lconf : LoopConfig) (g : Nat) (fs : FS) (idx2 : String) (n : Nat)
    (hn : (g == n) = false) :
    ((_do_fold evals idx_file lconf g fs).2).filter
      (Event.isRowFoldTo idx2 n) = [] := by
  by_cases h : fs.pathExists
      ( _score_file_stem (_fold_dir_path lconf g) lconf ++ ".txt") = true
  · simp [do_fold_skip _ _ _ _ _ h]
  · rw [Bool.not_eq_true] at h
    rw [do_fold_trace_nonskip _ _ _ _ _ h]
    rcases ensureDir_snd (_fold_dir_path lconf g) fs with he | he <;>
      simp [List.filter_append, he, Event.isRowFoldTo,
        run_evals_filter_rowFold_ne lconf g idx_file
          (_index_file_path (_fold_dir_path lconf g) lconf) idx2 n hn evals]

theorem run_folds_cons (evals : List EConf) (idx_file : String)
    (lconf : LoopConfig) (g : Nat) (rest : List Nat) (fs : FS) :
    run_folds evals idx_file lconf (g :: rest) fs =
      ((run_folds evals idx_file lconf rest
          (_do_fold evals idx_file lconf g fs).1).1,
       (_do_fold evals idx_file lconf g fs).2 ++
         (run_folds evals idx_file lconf rest
           (_do_fold evals idx_file lconf g fs).1).2) :=
  rfl

theorem run_folds_filter_rowFold (evals : List EConf) (idx_file : String)
    (lconf : LoopConfig) (n : Nat) :
    ∀ (folds : List Nat) (fs : FS),
      fs.pathExists
        ( _score_file_stem (_fold_dir_path lconf n) lconf ++ ".txt") =
          true →
      ((run_folds evals idx_file lconf folds fs).2).filter
        (Event.isRowFoldTo idx_file n) = []
  | [], _, _ => rfl
  | g :: rest, fs, hex => by
    have hrec := run_folds_filter_rowFold evals idx_file lconf n rest
      (_do_fold evals idx_file lconf g fs).1
      (do_fold_fst_mono _ _ _ _ _ _ hex)
    rw [run_folds_cons, List.filter_append, hrec]
    by_cases hg : g = n
    · subst hg
      rw [do_fold_skip _ _ _ _ _ hex]
      rfl
    · rw [do_fold_filter_rowFold_ne evals idx_file lconf g fs idx_file n
        (beq_eq_false_iff_ne.mpr hg)]
      rfl

/-! ## The corpus stage -/

theorem do_corpus_exit (evals : List EConf) (folds : List (String × Nat))
    (lconf : LoopConfig) (fs : FS)
    (h : fs.pathExists (_edu_input_path lconf) = false) :
    _do_corpus evals folds lconf fs =
      Res.exited _exit_ungathered_msg fs [] := by
  simp [_do_corpus, h]

theorem do_corpus_run (evals : List EConf) (folds : List (String × Nat))
    (lconf : LoopConfig) (fs : FS)
    (h : fs.pathExists (_edu_input_path lconf) = true) :
    _do_corpus evals folds lconf fs =
      Res.ok ()
        (_mk_report lconf.eval_dir lconf
          (_index_file_path lconf.scratch_dir lconf)
          ((run_folds evals (_index_file_path lconf.scratch_dir lconf) lconf
            ((folds.map Prod.snd).dedup)
            ((enfold_main_for_harness fs lconf.fold_file).mkFile
              (_index_file_path lconf.scratch_dir lconf))).1)).1
        ([Event.loadDataPack (_edu_input_path lconf) (_pairings_path lconf)
            (_features_path lconf),
          Event.enfoldCall lconf.fold_file] ++
         (run_folds evals (_index_file_path lconf.scratch_dir lconf) lconf
            ((folds.map Prod.snd).dedup)
            ((enfold_main_for_harness fs lconf.fold_file).mkFile
              (_index_file_path lconf.scratch_dir lconf))).2 ++
         [Event.reportCall (_index_file_path lconf.scratch_dir lconf)
           ( _score_file_stem lconf.eval_dir lconf ++ ".txt")
           ( _score_file_stem lconf.eval_dir lconf ++ ".json")]) := by
  simp [_do_corpus, h, _generate_fold_file, _mk_report]

/-- C9: when a fold is skipped because its `scores-<dataset>.txt` file
already exists, `_do_fold` does nothing at all for it, and no rows for
that fold are written to the corpus-level count index over the whole
`_do_corpus` run; hence on a resumed evaluation the corpus-level count
index (from which the final aggregated report is built) contains only the
folds processed in the current run. -/
theorem skipped_fold_writes_no_rows (evals : List EConf)
    (folds : List (String × Nat)) (lconf : LoopConfig) (fs : FS) (n : Nat)
    (hex : fs.pathExists
      ( _score_file_stem (_fold_dir_path lconf n) lconf ++ ".txt") =
        true) :
    (∀ idx_file, _do_fold evals idx_file lconf n fs = (fs, [])) ∧
    ((_do_corpus evals folds lconf fs).trace).filter
      (Event.isRowFoldTo (_index_file_path lconf.scratch_dir lconf) n) =
      [] := by
  refine ⟨fun idx_file => do_fold_skip evals idx_file lconf n fs hex, ?_⟩
  by_cases h : fs.pathExists (_edu_input_path lconf) = true
  · rw [do_corpus_run evals folds lconf fs h]
    have hmono : (((enfold_main_for_harness fs lconf.fold_file).mkFile
        (_index_file_path lconf.scratch_dir lconf))).pathExists
        ( _score_file_stem (_fold_dir_path lconf n) lconf ++ ".txt") =
          true :=
      FS.pathExists_mkFile_of _ _ _ (FS.pathExists_mkFile_of _ _ _ hex)
    simp [Res.trace, List.filter_append, Event.isRowFoldTo,
      run_folds_filter_rowFold evals
        (_index_file_path lconf.scratch_dir lconf) lconf n
        ((folds.map Prod.snd).dedup) _ hmono]
  · rw [Bool.not_eq_true] at h
    rw [do_corpus_exit evals folds lconf fs h]
    rfl

/-- Witness for C9: a filesystem that already has the fold-0 score file
(and the EDU input file). -/
theorem skipped_fold_writes_no_rows_witness :
    sampleFS2.pathExists
      ( _score_file_stem (_fold_dir_path sampleLconf 0) sampleLconf ++
        ".txt") = true ∧
    ((∀ idx_file,
        _do_fold [sampleEConf] idx_file sampleLconf 0 sampleFS2 =
          (sampleFS2, [])) ∧
     ((_do_corpus [sampleEConf] [("doc1", 0)] sampleLconf
          sampleFS2).trace).filter
       (Event.isRowFoldTo
         (_index_file_path sampleLconf.scratch_dir sampleLconf) 0) = []) :=
  ⟨by decide,
   skipped_fold_writes_no_rows [sampleEConf] [("doc1", 0)] sampleLconf
     sampleFS2 0 (by decide)⟩

/-- C4: for every loop configuration, if the EDU-input file for the
dataset does not exist in the evaluation directory, `_do_corpus` aborts
the whole run via `sys.exit` with the message telling the user to run
`irit-rst-dt gather` (`_exit_ungathered_msg`), before loading any data or
running any fold — the filesystem is unchanged and the trace is empty;
likewise `main` aborts with the same message when the data directory
itself does not exist. -/
theorem missing_input_aborts (evals : List EConf)
    (folds : List (String × Nat)) (lconf : LoopConfig) (fs : FS)
    (corpora : List String) (evals2 : List EConf)
    (folds_of : String → List (String × Nat)) (data_files : List String)
    (resume : Bool) (tstamp data_dir : String) (fs2 : FS) :
    (fs.pathExists (_edu_input_path lconf) = false →
      _do_corpus evals folds lconf fs =
        Res.exited _exit_ungathered_msg fs []) ∧
    (fs2.pathExists data_dir = false →
      main corpora evals2 folds_of data_files resume tstamp data_dir fs2 =
        Res.exited _exit_ungathered_msg fs2 []) := by
  constructor
  · intro h
    exact do_corpus_exit evals folds lconf fs h
  · intro h
    simp [main, h]

/-- C6: for every loop configuration, evaluation configuration, fold and
model type, the model file path produced by `_eval_model_path` is
`<scratch_dir>/fold-<fold>/<dataset>.<learner name>.<mtype>.model`. -/
theorem eval_model_path_layout (lconf : LoopConfig) (econf : EConf)
    (fold : Nat) (mtype : String) :
    _eval_model_path lconf econf fold mtype =
      lconf.scratch_dir ++ "/" ++ "fold-" ++ toString fold ++ "/" ++
        lconf.dataset ++ "." ++ econf.learner.name ++ "." ++ mtype ++
        ".model" := by
  simp only [_eval_model_path, _fold_dir_path, joinPath,
    String.append_assoc]

/-- C7: for every loop configuration, the per-dataset data files are
`<eval_dir>/<dataset>.relations.sparse` (features), that path plus
`.edu_input` (EDU input) and that path plus `.pairings` (pairings); the
fold-assignment file built by the corpus loop of `main` is
`<eval_dir>/folds-<dataset>.json`; and the per-configuration counts file
is `counts.<econf.name>.csv` in the fold directory. -/
theorem data_file_layout (lconf : LoopConfig) (econf : EConf) (fold : Nat)
    (eval_dir scratch_dir corpus : String) :
    _features_path lconf =
      lconf.eval_dir ++ "/" ++ lconf.dataset ++ "." ++
        "relations.sparse" ∧
    _edu_input_path lconf = _features_path lconf ++ ".edu_input" ∧
    _pairings_path lconf = _features_path lconf ++ ".pairings" ∧
    (lconf_for eval_dir scratch_dir corpus).fold_file =
      eval_dir ++ "/" ++ "folds-" ++ basename corpus ++ ".json" ∧
    _counts_file_path lconf econf fold =
      _fold_dir_path lconf fold ++ "/" ++ "counts." ++ econf.name ++
        ".csv" := by
  refine ⟨?_, rfl, rfl, ?_, ?_⟩ <;>
    simp only [_features_path, _eval_data_path, _counts_file_path,
      lconf_for, joinPath, String.append_assoc]

/-! ## Sequencing lemmas for C5 -/

theorem do_fold_filter_loadData (evals : List EConf) (idx_file : String)
    (lconf : LoopConfig) (g : Nat) (fs : FS) :
    ((_do_fold evals idx_file lconf g fs).2).filter Event.isLoadData =
      [] := by
  by_cases h : fs.pathExists
      ( _score_file_stem (_fold_dir_path lconf g) lconf ++ ".txt") = true
  · simp [do_fold_skip _ _ _ _ _ h]
  · rw [Bool.not_eq_true] at h
    rw [do_fold_trace_nonskip _ _ _ _ _ h]
    rcases ensureDir_snd (_fold_dir_path lconf g) fs with he | he <;>
      simp [List.filter_append, he, Event.isLoadData,
        run_evals_filter_loadData lconf g idx_file
          (_index_file_path (_fold_dir_path lconf g) lconf) evals]

theorem run_folds_filter_loadData (evals : List EConf) (idx_file : String)
    (lconf : LoopConfig) :
    ∀ (folds : List Nat) (fs : FS),
      ((run_folds evals idx_file lconf folds fs).2).filter
        Event.isLoadData = []
  | [], _ => rfl
  | g :: rest, fs => by
    have ih := run_folds_filter_loadData evals idx_file lconf rest
      (_do_fold evals idx_file lconf g fs).1
    rw [run_folds_cons, List.filter_append, ih,
      do_fold_filter_loadData evals idx_file lconf g fs]
    rfl

theorem do_corpus_filter_loadData (evals : List EConf)
    (folds : List (String × Nat)) (lconf : LoopConfig) (fs : FS)
    (h : fs.pathExists (_edu_input_path lconf) = true) :
    ((_do_corpus evals folds lconf fs).trace).filter Event.isLoadData =
      [Event.loadDataPack (_edu_input_path lconf) (_pairings_path lconf)
        (_features_path lconf)] := by
  rw [do_corpus_run evals folds lconf fs h]
  simp [Res.trace, List.filter_append, Event.isLoadData,
    run_folds_filter_loadData evals
      (_index_file_path lconf.scratch_dir lconf) lconf
      ((folds.map Prod.snd).dedup)]

theorem do_corpus_isOk (evals : List EConf) (folds : List (String × Nat))
    (lconf : LoopConfig) (fs : FS) :
    (_do_corpus evals folds lconf fs).isOk =
      fs.pathExists (_edu_input_path lconf) := by
  cases h : fs.pathExists (_edu_input_path lconf)
  · rw [do_corpus_exit _ _ _ _ h]; rfl
  · rw [do_corpus_run _ _ _ _ h]; rfl

theorem do_corpus_trace_getLast (evals : List EConf)
    (folds : List (String × Nat)) (lconf : LoopConfig) (fs : FS)
    (h : fs.pathExists (_edu_input_path lconf) = true) :
    ((_do_corpus evals folds lconf fs).trace).getLast? =
      some (Event.reportCall (_index_file_path lconf.scratch_dir lconf)
        ( _score_file_stem lconf.eval_dir lconf ++ ".txt")
        ( _score_file_stem lconf.eval_dir lconf ++ ".json")) := by
  rw [do_corpus_run evals folds lconf fs h]
  exact List.getLast?_concat _

theorem run_corpora_filter_loadData (evals : List EConf)
    (folds_of : String → List (String × Nat))
    (eval_dir scratch_dir : String) :
    ∀ (corpora : List String) (fs : FS),
      (run_corpora evals folds_of eval_dir scratch_dir corpora fs).isOk =
        true →
      ((run_corpora evals folds_of eval_dir scratch_dir corpora
          fs).trace).filter Event.isLoadData =
        corpora.map (fun corpus =>
          Event.loadDataPack
            (_edu_input_path (lconf_for eval_dir scratch_dir corpus))
            (_pairings_path (lconf_for eval_dir scratch_dir corpus))
            (_features_path (lconf_for eval_dir scratch_dir corpus)))
  | [], _, _ => rfl
  | corpus :: rest, fs, hok => by
    cases hq : _do_corpus evals (folds_of (basename corpus))
        (lconf_for eval_dir scratch_dir corpus) fs with
    | exited m fs1 tr1 =>
      rw [show run_corpora evals folds_of eval_dir scratch_dir
            (corpus :: rest) fs = Res.exited m fs1 tr1 by
          simp [run_corpora, hq]] at hok
      cases hok
    | ok a fs1 tr1 =>
      have hedu : fs.pathExists
          (_edu_input_path (lconf_for eval_dir scratch_dir corpus)) =
            true := by
        rw [← do_corpus_isOk evals (folds_of (basename corpus))
          (lconf_for eval_dir scratch_dir corpus) fs, hq]
        rfl
      have htr1 : tr1 = (_do_corpus evals (folds_of (basename corpus))
          (lconf_for eval_dir scratch_dir corpus) fs).trace := by
        rw [hq]
        rfl
      cases hq2 : run_corpora evals folds_of eval_dir scratch_dir rest
          fs1 with
      | exited m2 fs2 tr2 =>
        rw [show run_corpora evals folds_of eval_dir scratch_dir
              (corpus :: rest) fs = Res.exited m2 fs2 (tr1 ++ tr2) by
            simp [run_corpora, hq, hq2]] at hok
        cases hok
      | ok a2 fs2 tr2 =>
        have hok2 : (run_corpora evals folds_of eval_dir scratch_dir rest
            fs1).isOk = true := by rw [hq2]; rfl
        have ih := run_corpora_filter_loadData evals folds_of eval_dir
          scratch_dir rest fs1 hok2
        rw [hq2] at ih
        rw [show run_corpora evals folds_of eval_dir scratch_dir
              (corpus :: rest) fs = Res.ok () fs2 (tr1 ++ tr2) by
            simp [run_corpora, hq, hq2]]
        have h1 : (Res.ok () fs2 (tr1 ++ tr2) : Res Unit).trace =
            tr1 ++ tr2 := rfl
        rw [h1, List.filter_append, htr1,
          do_corpus_filter_loadData evals (folds_of (basename corpus))
            (lconf_for eval_dir scratch_dir corpus) fs hedu]
        simp only [Res.trace] at ih
        rw [ih, List.map_cons]
        rfl

/-- C5: execution is strictly sequential nested iteration.  In a normally
completed run, the corpus loop of `main` (`run_corpora`) processes every
corpus one at a time in `TRAINING_CORPORA` list order: the
`load_data_pack` subsequence of the trace is exactly one event per corpus
in list order.  Within a corpus, `_do_corpus` processes the folds one at a
time and generates the corpus-level report only after all folds: the
report call on the corpus index is the final action of its trace.  Within
a fold, `_do_fold` processes the learner/decoder configurations one at a
time in `EVALUATIONS` list order — the per-fold row subsequence is exactly
`EVALUATIONS` in order — and closes with the per-fold report. -/
theorem evaluation_sequential (evals : List EConf)
    (folds_of : String → List (String × Nat))
    (eval_dir scratch_dir : String) (corpora : List String) (fs : FS)
    (hok : (run_corpora evals folds_of eval_dir scratch_dir corpora
      fs).isOk = true) :
    ((run_corpora evals folds_of eval_dir scratch_dir corpora
        fs).trace).filter Event.isLoadData =
      corpora.map (fun corpus =>
        Event.loadDataPack
          (_edu_input_path (lconf_for eval_dir scratch_dir corpus))
          (_pairings_path (lconf_for eval_dir scratch_dir corpus))
          (_features_path (lconf_for eval_dir scratch_dir corpus))) ∧
    (∀ (folds : List (String × Nat)) (lconf : LoopConfig) (fs1 : FS),
      (_do_corpus evals folds lconf fs1).isOk = true →
      ((_do_corpus evals folds lconf fs1).trace).getLast? =
        some (Event.reportCall (_index_file_path lconf.scratch_dir lconf)
          ( _score_file_stem lconf.eval_dir lconf ++ ".txt")
          ( _score_file_stem lconf.eval_dir lconf ++ ".json"))) ∧
    (∀ (lconf : LoopConfig) (fold : Nat) (fs2 : FS),
      fs2.pathExists
        ( _score_file_stem (_fold_dir_path lconf fold) lconf ++ ".txt") =
          false →
      ((_do_fold evals (_index_file_path lconf.scratch_dir lconf) lconf
          fold fs2).2).filter
          (Event.isRowTo (_index_file_path (_fold_dir_path lconf fold)
            lconf)) =
        evals.map (fun e =>
          Event.writeRow (_index_file_path (_fold_dir_path lconf fold)
            lconf) (rowFor lconf e fold)) ∧
      ((_do_fold evals (_index_file_path lconf.scratch_dir lconf) lconf
          fold fs2).2).getLast? =
        some (Event.reportCall
          (_index_file_path (_fold_dir_path lconf fold) lconf)
          ( _score_file_stem (_fold_dir_path lconf fold) lconf ++ ".txt")
          ( _score_file_stem (_fold_dir_path lconf fold) lconf ++
            ".json"))) := by
  refine ⟨run_corpora_filter_loadData evals folds_of eval_dir scratch_dir
    corpora fs hok, ?_, ?_⟩
  · intro folds lconf fs1 hok1
    have h : fs1.pathExists (_edu_input_path lconf) = true := by
      rw [← do_corpus_isOk evals folds lconf fs1]
      exact hok1
    exact do_corpus_trace_getLast evals folds lconf fs1 h
  · intro lconf fold fs2 h
    constructor
    · rw [do_fold_trace_nonskip _ _ _ _ _ h]
      rcases ensureDir_snd (_fold_dir_path lconf fold) fs2 with he | he <;>
        simp [List.filter_append, he, Event.isRowTo,
          run_evals_filter_rowTo_fidx lconf fold
            (_index_file_path lconf.scratch_dir lconf)
            (_index_file_path (_fold_dir_path lconf fold) lconf)
            (index_file_path_scratch_beq_fold lconf fold) evals]
    · rw [do_fold_trace_nonskip _ _ _ _ _ h]
      exact List.getLast?_concat _

/-- Witness for C5 on a one-corpus run that completes normally. -/
theorem evaluation_sequential_witness :
    (run_corpora [sampleEConf] emptyFolds "T/e" "T/s" ["c"]
      sampleFS3).isOk = true ∧
    (((run_corpora [sampleEConf] emptyFolds "T/e" "T/s" ["c"]
        sampleFS3).trace).filter Event.isLoadData =
      ["c"].map (fun corpus =>
        Event.loadDataPack (_edu_input_path (lconf_for "T/e" "T/s" corpus))
          (_pairings_path (lconf_for "T/e" "T/s" corpus))
          (_features_path (lconf_for "T/e" "T/s" corpus))) ∧
    (∀ (folds : List (String × Nat)) (lconf : LoopConfig) (fs1 : FS),
      (_do_corpus [sampleEConf] folds lconf fs1).isOk = true →
      ((_do_corpus [sampleEConf] folds lconf fs1).trace).getLast? =
        some (Event.reportCall (_index_file_path lconf.scratch_dir lconf)
          ( _score_file_stem lconf.eval_dir lconf ++ ".txt")
          ( _score_file_stem lconf.eval_dir lconf ++ ".json"))) ∧
    (∀ (lconf : LoopConfig) (fold : Nat) (fs2 : FS),
      fs2.pathExists
        ( _score_file_stem (_fold_dir_path lconf fold) lconf ++ ".txt") =
          false →
      ((_do_fold [sampleEConf]
          (_index_file_path lconf.scratch_dir lconf) lconf fold
          fs2).2).filter
          (Event.isRowTo (_index_file_path (_fold_dir_path lconf fold)
            lconf)) =
        [sampleEConf].map (fun e =>
          Event.writeRow (_index_file_path (_fold_dir_path lconf fold)
            lconf) (rowFor lconf e fold)) ∧
      ((_do_fold [sampleEConf]
          (_index_file_path lconf.scratch_dir lconf) lconf fold
          fs2).2).getLast? =
        some (Event.reportCall
          (_index_file_path (_fold_dir_path lconf fold) lconf)
          ( _score_file_stem (_fold_dir_path lconf fold) lconf ++ ".txt")
          ( _score_file_stem (_fold_dir_path lconf fold) lconf ++
            ".json")))) :=
  ⟨by decide,
   evaluation_sequential [sampleEConf] emptyFolds "T/e" "T/s" ["c"]
     sampleFS3 (by decide)⟩

/-! ## String helpers for the eval/scratch directory stage -/

theorem joinPath_left_cancel (dd x y : String)
    (h : joinPath dd x = joinPath dd y) : x = y := by
  have hd := congrArg String.data h
  simp only [joinPath, String.data_append, List.append_assoc] at hd
  have h1 := List.append_cancel_left hd
  have h2 := List.append_cancel_left h1
  exact String.ext h2

theorem scratch_ne_eval (x y : String) :
    ("scratch-" ++ x) ≠ ("eval-" ++ y) := by
  intro h
  have hdata : ("scratch-" ++ x).data = ("eval-" ++ y).data :=
    congrArg String.data h
  rw [String.data_append, String.data_append] at hdata
  have h1 : "scratch-".data = ['s', 'c', 'r', 'a', 't', 'c', 'h', '-'] :=
    rfl
  have h2 : "eval-".data = ['e', 'v', 'a', 'l', '-'] := rfl
  rw [h1, h2] at hdata
  simp at hdata

theorem scratch_beq_eval_path (dd ts z : String) :
    (joinPath dd ("scratch-" ++ ts) == joinPath dd ("eval-" ++ z)) =
      false := by
  apply beq_eq_false_iff_ne.mpr
  intro h
  exact scratch_ne_eval ts z (joinPath_left_cancel dd _ _ h)

theorem scratch_beq_eval_current (dd ts : String) :
    (joinPath dd ("scratch-" ++ ts) == joinPath dd "eval-current") =
      false := by
  have h : ("eval-current" : String) = "eval-" ++ "current" := rfl
  rw [h]
  exact scratch_beq_eval_path dd ts "current"

theorem scratch_beq_linked (dd ts f : String) :
    (joinPath dd ("scratch-" ++ ts) ==
      joinPath (joinPath dd ("eval-" ++ ts)) f) = false := by
  have h1 : joinPath (joinPath dd ("eval-" ++ ts)) f =
      joinPath dd ("eval-" ++ (ts ++ "/" ++ f)) := by
    simp [joinPath, String.append_assoc]
  rw [h1]
  exact scratch_beq_eval_path dd ts (ts ++ "/" ++ f)

theorem link_data_files_mono (eval_dir q : String) :
    ∀ (data_files : List String) (fs : FS), fs.pathExists q = true →
      (_link_data_files data_files eval_dir fs).pathExists q = true
  | [], _, h => h
  | f :: rest, fs, h =>
    link_data_files_mono eval_dir q rest (fs.mkFile (joinPath eval_dir f))
      (FS.pathExists_mkFile_of fs q _ h)

theorem link_data_files_pathExists_ne (eval_dir q : String)
    (hq : ∀ f, (q == joinPath eval_dir f) = false) :
    ∀ (data_files : List String) (fs : FS),
      (_link_data_files data_files eval_dir fs).pathExists q =
        fs.pathExists q
  | [], _ => rfl
  | f :: rest, fs => by
    have ih := link_data_files_pathExists_ne eval_dir q hq rest
      (fs.mkFile (joinPath eval_dir f))
    rw [show _link_data_files (f :: rest) eval_dir fs =
          _link_data_files rest eval_dir
            (fs.mkFile (joinPath eval_dir f)) from rfl]
    rw [ih, FS.pathExists_mkFile, hq f, Bool.false_or]

theorem scratch_step_fst (ts dd : String) (fs : FS) :
    (_scratch_step ts dd fs).1 = joinPath dd ("scratch-" ++ ts) := by
  cases h : fs.pathExists (joinPath dd ("scratch-" ++ ts)) <;>
    simp [_scratch_step, h]

theorem scratch_step_exists_scratch (ts dd : String) (fs : FS) :
    ((_scratch_step ts dd fs).2.1).pathExists
      (joinPath dd ("scratch-" ++ ts)) = true := by
  cases h : fs.pathExists (joinPath dd ("scratch-" ++ ts)) <;>
    simp [_scratch_step, h, FS.pathExists_mkFile]

theorem scratch_step_mono (ts dd : String) (fs : FS) (q : String)
    (h : fs.pathExists q = true) :
    ((_scratch_step ts dd fs).2.1).pathExists q = true := by
  cases hc : fs.pathExists (joinPath dd ("scratch-" ++ ts)) <;>
    simp [_scratch_step, hc, FS.pathExists_mkFile, h]

theorem scratch_step_creates_symlink (ts dd : String) (fs : FS)
    (h : fs.pathExists (joinPath dd ("scratch-" ++ ts)) = false) :
    ((_scratch_step ts dd fs).2.1).pathExists
      (joinPath dd "scratch-current") = true := by
  simp [_scratch_step, h, FS.pathExists_mkFile]

theorem fs1_scratch_preserved (data_files : List String)
    (dd ts : String) (fs : FS) :
    ((_link_data_files data_files (joinPath dd ("eval-" ++ ts))
        (fs.mkFile (joinPath dd ("eval-" ++ ts)))).mkFile
        (joinPath dd "eval-current")).pathExists
      (joinPath dd ("scratch-" ++ ts)) =
    fs.pathExists (joinPath dd ("scratch-" ++ ts)) := by
  rw [FS.pathExists_mkFile, scratch_beq_eval_current dd ts, Bool.false_or,
    link_data_files_pathExists_ne (joinPath dd ("eval-" ++ ts))
      (joinPath dd ("scratch-" ++ ts))
      (fun f => scratch_beq_linked dd ts f) data_files
      (fs.mkFile (joinPath dd ("eval-" ++ ts))),
    FS.pathExists_mkFile, scratch_beq_eval_path dd ts ts, Bool.false_or]

/-! ## Branch lemmas for `_create_eval_dirs` -/

theorem create_eval_dirs_resume_ok (data_files : List String)
    (tstamp data_dir : String) (fs : FS)
    (h1 : fs.pathExists (joinPath data_dir "eval-current") = true)
    (h2 : fs.pathExists (joinPath data_dir "scratch-current") = true) :
    _create_eval_dirs data_files true tstamp data_dir fs =
      Res.ok (joinPath data_dir "eval-current",
        joinPath data_dir "scratch-current") fs [] := by
  simp [_create_eval_dirs, h1, h2]

theorem create_eval_dirs_resume_exit (data_files : List String)
    (tstamp data_dir : String) (fs : FS)
    (h : fs.pathExists (joinPath data_dir "eval-current") = false ∨
      fs.pathExists (joinPath data_dir "scratch-current") = false) :
    _create_eval_dirs data_files true tstamp data_dir fs =
      Res.exited "No currently running evaluation to resume!" fs [] := by
  simp [_create_eval_dirs, h]

theorem create_eval_dirs_stale (data_files : List String)
    (tstamp data_dir : String) (fs : FS)
    (h : fs.pathExists (joinPath data_dir ("eval-" ++ tstamp)) = true) :
    _create_eval_dirs data_files false tstamp data_dir fs =
      Res.exited "Try again in literally one second" fs [] := by
  simp [_create_eval_dirs, _DEBUG, h]

theorem create_eval_dirs_fresh (data_files : List String)
    (tstamp data_dir : String) (fs : FS)
    (h : fs.pathExists (joinPath data_dir ("eval-" ++ tstamp)) = false) :
    _create_eval_dirs data_files false tstamp data_dir fs =
      Res.ok (joinPath data_dir ("eval-" ++ tstamp),
          (_scratch_step tstamp data_dir
            ((_link_data_files data_files
                (joinPath data_dir ("eval-" ++ tstamp))
                (fs.mkFile (joinPath data_dir ("eval-" ++ tstamp)))).mkFile
              (joinPath data_dir "eval-current"))).1)
        (_scratch_step tstamp data_dir
          ((_link_data_files data_files
              (joinPath data_dir ("eval-" ++ tstamp))
              (fs.mkFile (joinPath data_dir ("eval-" ++ tstamp)))).mkFile
            (joinPath data_dir "eval-current"))).2.1
        ([Event.mkdirs (joinPath data_dir ("eval-" ++ tstamp)),
          Event.symlink (basename (joinPath data_dir ("eval-" ++ tstamp)))
            (joinPath data_dir "eval-current")] ++
         (_scratch_step tstamp data_dir
           ((_link_data_files data_files
               (joinPath data_dir ("eval-" ++ tstamp))
               (fs.mkFile (joinPath data_dir ("eval-" ++ tstamp)))).mkFile
             (joinPath data_dir "eval-current"))).2.2) := by
  simp [_create_eval_dirs, _DEBUG, h]

/-- C10: `_create_eval_dirs` exits the program in exactly two cases: with
`--resume`, when the `eval-current` or `scratch-current` symlink does not
exist (message "No currently running evaluation to resume!"); without
`--resume`, when the run — always non-debug, since the module constant
`_DEBUG` is 0 — finds the timestamped eval directory already exists
(message "Try again in literally one second").  In all other cases it
returns the pair (eval directory, scratch directory): the current symlinks
under `--resume`, the timestamped directories otherwise, both of which
exist afterwards, and when a timestamped directory was absent it is
created together with its current-symlink. -/
theorem create_eval_dirs_cases (data_files : List String) (resume : Bool)
    (tstamp data_dir : String) (fs : FS) :
    ((_create_eval_dirs data_files resume tstamp data_dir fs).isOk =
        false ↔
      (resume = true ∧
        (fs.pathExists (joinPath data_dir "eval-current") = false ∨
         fs.pathExists (joinPath data_dir "scratch-current") = false)) ∨
      (resume = false ∧
        fs.pathExists (joinPath data_dir ("eval-" ++ tstamp)) = true)) ∧
    (resume = true →
      (fs.pathExists (joinPath data_dir "eval-current") = false ∨
       fs.pathExists (joinPath data_dir "scratch-current") = false) →
      _create_eval_dirs data_files resume tstamp data_dir fs =
        Res.exited "No currently running evaluation to resume!" fs []) ∧
    (resume = false →
      fs.pathExists (joinPath data_dir ("eval-" ++ tstamp)) = true →
      _create_eval_dirs data_files resume tstamp data_dir fs =
        Res.exited "Try again in literally one second" fs []) ∧
    ((_create_eval_dirs data_files resume tstamp data_dir fs).isOk =
        true →
      (_create_eval_dirs data_files resume tstamp data_dir fs).value? =
        some (if resume then
            (joinPath data_dir "eval-current",
             joinPath data_dir "scratch-current")
          else
            (joinPath data_dir ("eval-" ++ tstamp),
             joinPath data_dir ("scratch-" ++ tstamp))) ∧
      ((_create_eval_dirs data_files resume tstamp data_dir
          fs).fsOut).pathExists
        (if resume then joinPath data_dir "eval-current"
         else joinPath data_dir ("eval-" ++ tstamp)) = true ∧
      ((_create_eval_dirs data_files resume tstamp data_dir
          fs).fsOut).pathExists
        (if resume then joinPath data_dir "scratch-current"
         else joinPath data_dir ("scratch-" ++ tstamp)) = true ∧
      (resume = false →
        ((_create_eval_dirs data_files resume tstamp data_dir
            fs).fsOut).pathExists (joinPath data_dir "eval-current") =
          true ∧
        (fs.pathExists (joinPath data_dir ("scratch-" ++ tstamp)) =
            false →
          ((_create_eval_dirs data_files resume tstamp data_dir
              fs).fsOut).pathExists
            (joinPath data_dir "scratch-current") = true))) := by
  cases resume
  · cases hev : fs.pathExists (joinPath data_dir ("eval-" ++ tstamp))
    · rw [create_eval_dirs_fresh data_files tstamp data_dir fs hev]
      have ha : (fs.mkFile (joinPath data_dir
          ("eval-" ++ tstamp))).pathExists
          (joinPath data_dir ("eval-" ++ tstamp)) = true := by
        simp [FS.pathExists_mkFile]
      have hb := link_data_files_mono
        (joinPath data_dir ("eval-" ++ tstamp))
        (joinPath data_dir ("eval-" ++ tstamp)) data_files _ ha
      have hc := FS.pathExists_mkFile_of _
        (joinPath data_dir ("eval-" ++ tstamp))
        (joinPath data_dir "eval-current") hb
      have hd := scratch_step_mono tstamp data_dir _
        (joinPath data_dir ("eval-" ++ tstamp)) hc
      have he : ((_link_data_files data_files
          (joinPath data_dir ("eval-" ++ tstamp))
          (fs.mkFile (joinPath data_dir ("eval-" ++ tstamp)))).mkFile
          (joinPath data_dir "eval-current")).pathExists
          (joinPath data_dir "eval-current") = true := by
        simp [FS.pathExists_mkFile]
      have hf := scratch_step_mono tstamp data_dir _
        (joinPath data_dir "eval-current") he
      refine ⟨by simp [Res.isOk, hev], by simp, ?_, ?_⟩
      · intro _ hcontra
        simp [hev] at hcontra
      · intro _
        refine ⟨by simp [Res.value?, scratch_step_fst], ?_, ?_, ?_⟩
        · simpa [Res.fsOut] using hd
        · simpa [Res.fsOut] using
            scratch_step_exists_scratch tstamp data_dir _
        · intro _
          refine ⟨by simpa [Res.fsOut] using hf, ?_⟩
          intro hs
          have hpres := fs1_scratch_preserved data_files data_dir tstamp fs
          rw [hs] at hpres
          simpa [Res.fsOut] using
            scratch_step_creates_symlink tstamp data_dir _ hpres
    · rw [create_eval_dirs_stale data_files tstamp data_dir fs hev]
      exact ⟨by simp [Res.isOk, hev], by simp, fun _ _ => rfl,
        by simp [Res.isOk]⟩
  · cases h1 : fs.pathExists (joinPath data_dir "eval-current") <;>
      cases h2 : fs.pathExists (joinPath data_dir "scratch-current")
    · rw [create_eval_dirs_resume_exit data_files tstamp data_dir fs
        (Or.inl h1)]
      exact ⟨by simp [Res.isOk, h1], fun _ _ => rfl, by simp,
        by simp [Res.isOk]⟩
    · rw [create_eval_dirs_resume_exit data_files tstamp data_dir fs
        (Or.inl h1)]
      exact ⟨by simp [Res.isOk, h1], fun _ _ => rfl, by simp,
        by simp [Res.isOk]⟩
    · rw [create_eval_dirs_resume_exit data_files tstamp data_dir fs
        (Or.inr h2)]
      exact ⟨by simp [Res.isOk, h2], fun _ _ => rfl, by simp,
        by simp [Res.isOk]⟩
    · rw [create_eval_dirs_resume_ok data_files tstamp data_dir fs h1 h2]
      refine ⟨by simp [Res.isOk, h1, h2], ?_, by simp, ?_⟩
      · intro _ hor
        rcases hor with hx | hx
        · simp [h1] at hx
        · simp [h2] at hx
      · intro _
        exact ⟨by simp [Res.value?], by simp [Res.fsOut, h1],
          by simp [Res.fsOut, h2], by simp⟩

end IritRstDt
